import Mathlib

/-!
# Verification of `dicom-pseudon` (`src/dicom_pseudon.py`)

A shallow embedding of the pseudonymization core of `dicom_pseudon.py`:
the attribute retention policy (`clean`, `clean_meta`), the quarantine
inspector (`check_quarantine`), the fingerprint engine (`get_fingerprint`),
the identity store (`Index`), the path guard (`destination`), and the
per-file pipeline (`walk_dicom` / `run_worker`).

Python strings are modelled as `List Char` (`Str`), since a DICOM
attribute value in this code is either a string, `None`, or a list of
values.  Datasets are association lists from tags to elements, mirroring
the ordered-mapping behaviour of the dataset codec.  All definitions are
executable so that concrete scenarios evaluate inside the kernel.
-/

namespace DicomPseudon

/-! ## Python strings -/

/-- Python strings, modelled as character lists so that every operation
    below is a structural recursion the kernel can evaluate. -/
abbrev Str := List Char

/-- Embed a Lean string literal as a `Str`. -/
def lit (s : String) : Str := s.data

/-- Python `str.strip()` whitespace class (the common ASCII whitespace). -/
def isSpaceCh (c : Char) : Bool :=
  c = ' ' || c = '\t' || c = '\n' || c = '\x0d' || c = '\x0b' || c = '\x0c'

/-- Python `str.strip()`: drop whitespace from both ends. -/
def strStrip (s : Str) : Str :=
  ((s.dropWhile isSpaceCh).reverse.dropWhile isSpaceCh).reverse

/-- ASCII lower-casing of one character, as `str.lower()` acts on the
    ASCII range used by the checks. -/
def chLower (c : Char) : Char :=
  if 'A' ≤ c ∧ c ≤ 'Z' then Char.ofNat (c.toNat + 32) else c

/-- Python `str.lower()`. -/
def strLower (s : Str) : Str := s.map chLower

/-- Python `pat in hay` (substring containment). -/
def strContains : Str → Str → Bool
  | [], pat => pat.isEmpty
  | c :: t, pat => pat.isPrefixOf (c :: t) || strContains t pat

/-- Python `s.startswith(pre)`. -/
def strStartsWith (s pre : Str) : Bool := pre.isPrefixOf s

/-- `str.split(sep)` for a one-character separator (used for paths). -/
def splitOnCh (sep : Char) : Str → List Str
  | [] => [[]]
  | c :: t =>
    if c = sep then [] :: splitOnCh sep t
    else match splitOnCh sep t with
      | h :: r => (c :: h) :: r
      | [] => [[c]]

/-- Decimal rendering of a natural number (for the `"%d.dcm"` filenames). -/
def natStr (n : Nat) : Str := Nat.toDigits 10 n

/-! ## Posix path helpers (`os.path`), used by `destination`,
    `quarantine_file` and `walk_dicom`. -/

/-- `os.path.join(a, b)` on posix. -/
def pathJoin (a b : Str) : Str :=
  if strStartsWith b (lit "/") then b
  else if a = [] ∨ a.getLast? = some '/' then a ++ b
  else a ++ lit "/" ++ b

/-- `os.path.basename`. -/
def basename (p : Str) : Str := (splitOnCh '/' p).getLastD []

/-- `os.path.normpath` on posix: collapse separators and `.`, resolve
    `..` components, preserving the leading-`//` special case. -/
def normpath (path : Str) : Str :=
  let initial_slashes : Nat :=
    if strStartsWith path (lit "//") ∧ ¬ strStartsWith path (lit "///") then 2
    else if strStartsWith path (lit "/") then 1
    else 0
  let comps := splitOnCh '/' path
  let new_comps := comps.foldl (fun acc comp =>
    if comp = [] ∨ comp = lit "." then acc
    else if comp ≠ lit ".." ∨ (initial_slashes = 0 ∧ acc = []) ∨
            (acc ≠ [] ∧ acc.getLast? = some (lit "..")) then acc ++ [comp]
    else if acc ≠ [] then acc.dropLast
    else acc) []
  let p := List.replicate initial_slashes '/' ++ List.intercalate (lit "/") new_comps
  if p = [] then lit "." else p

/-! ## Tags, elements and datasets -/

/-- A DICOM tag: a `(group, element)` pair. -/
abbrev Tag := Nat × Nat

/-- The value carried by a data element: `None`, a single string value,
    or a multi-valued list (`VM > 1`) whose entries may be `None`. -/
inductive EValue where
  | null
  | str (s : Str)
  | multi (vs : List (Option Str))
deriving DecidableEq, Repr

/-- A data element: its value representation and value, keyed externally
    by its tag. -/
structure Element where
  vr : Str
  value : EValue
deriving DecidableEq, Repr

/-- A dataset mapping: an ordered association list from tags to elements
    with no duplicate tags (`dsWF`), as in the codec's tag-keyed dict. -/
abbrev Dataset := List (Tag × Element)

/-- `ds[t]` as an option: the first (and, for well-formed datasets,
    only) entry whose tag is `t`. -/
def dsGet? : Dataset → Tag → Option Element
  | [], _ => none
  | p :: ds, t => if p.1 = t then some p.2 else dsGet? ds t

/-- `tag in ds`. -/
def dsMem (ds : Dataset) (t : Tag) : Bool := (dsGet? ds t).isSome

/-- `ds[t].value = v` (no-op when the tag is absent, as the callers
    always guard or guarantee presence). -/
def dsSetValue : Dataset → Tag → EValue → Dataset
  | [], _, _ => []
  | p :: ds, t, v =>
    (if p.1 = t then (p.1, { p.2 with value := v }) else p) :: dsSetValue ds t v

/-- Replace the entry of a present tag in place. -/
def dsReplace : Dataset → Tag → Element → Dataset
  | [], _, _ => []
  | p :: ds, t, e => (if p.1 = t then (p.1, e) else p) :: dsReplace ds t e

/-- `ds[t] = e`: replace in place, or append when the tag is absent (the
    insertion-ordered dict of the codec). -/
def dsSet (ds : Dataset) (t : Tag) (e : Element) : Dataset :=
  if dsMem ds t then dsReplace ds t e else ds ++ [(t, e)]

/-- `del ds[t]`. -/
def dsDel : Dataset → Tag → Dataset
  | [], _ => []
  | p :: ds, t => if p.1 = t then dsDel ds t else p :: dsDel ds t

def dsKeys (ds : Dataset) : List Tag := ds.map Prod.fst

/-- Well-formedness: a dataset is a mapping, so tags are unique. -/
def dsWF (ds : Dataset) : Prop := (dsKeys ds).Nodup

instance (ds : Dataset) : Decidable (dsWF ds) :=
  inferInstanceAs (Decidable (dsKeys ds).Nodup)

/-! ## `ds.walk(callback)`: visit every element once, in ascending tag
    order.  The callbacks of this program (`clean`, `clean_meta`) read and
    mutate only the entry of the visited tag, so we model a callback as a
    function of the current dataset and the visited tag. -/

def tagLE (a b : Tag) : Bool :=
  decide (a.1 < b.1 ∨ (a.1 = b.1 ∧ a.2 ≤ b.2))

def insertSorted (x : Tag) : List Tag → List Tag
  | [] => [x]
  | y :: t => if tagLE x y then x :: y :: t else y :: insertSorted x t

/-- Ascending tag order of `Dataset.walk` (insertion sort, so that it
    evaluates in the kernel). -/
def sortTags (l : List Tag) : List Tag := l.foldr insertSorted []

def dsWalk (f : Dataset → Tag → Dataset × Bool) (ds : Dataset) : Dataset :=
  (sortTags (dsKeys ds)).foldl (fun acc t => (f acc t).1) ds

/-! ## Fixed tag tables of `dicom_pseudon.py` -/

def MEDIA_STORAGE_SOP_INSTANCE_UID : Tag := (0x2, 0x3)
def ACCESSION_NUMBER : Tag := (0x8, 0x50)
def SERIES_DESCR : Tag := (0x8, 0x103E)
def MODALITY : Tag := (0x8, 0x60)
def BURNT_IN : Tag := (0x28, 0x301)
def IMAGE_TYPE : Tag := (0x8, 0x8)
def MANUFACTURER : Tag := (0x8, 0x70)
def MANUFACTURER_MODEL_NAME : Tag := (0x8, 0x1090)
def PIXEL_DATA : Tag := (0x7FE0, 0x10)
def SOP_INSTANCE_UID : Tag := (0x8, 0x18)

def ALLOWED_FILE_META : List Tag :=
  [MEDIA_STORAGE_SOP_INSTANCE_UID,
   (0x2, 0x0), (0x2, 0x1), (0x2, 0x2), (0x2, 0x10), (0x2, 0x12), (0x2, 0x13)]

def REQUIRED_TAGS : List Tag :=
  [ACCESSION_NUMBER,
   (0x8, 0x20), (0x8, 0x30), (0x8, 0x90),
   (0x10, 0x10), (0x10, 0x20), (0x10, 0x30), (0x10, 0x40),
   (0x20, 0x10), (0x20, 0x11), (0x20, 0x13), (0x20, 0x20),
   (0x20, 0xD), (0x20, 0xE)]

def PIXEL_MODULE_TAGS : List Tag :=
  [PIXEL_DATA,
   (0x28, 0x2), (0x28, 0x4), (0x28, 0x6), (0x28, 0x10), (0x28, 0x11),
   (0x28, 0x34), (0x28, 0x100), (0x28, 0x101), (0x28, 0x102), (0x28, 0x103),
   (0x28, 0x106), (0x28, 0x107), (0x28, 0x121),
   (0x28, 0x1101), (0x28, 0x1102), (0x28, 0x1103),
   (0x28, 0x1201), (0x28, 0x1202), (0x28, 0x1203),
   (0x28, 0x2000), (0x28, 0x2002), (0x28, 0x7FE0)]

def REMOVED_TEXT : Str := lit "Removed by dicom-pseudon"

def DE_IDENTIFICATION_METHOD : Str :=
  lit "Pseudonymized by The Cancer Registry of Norway"

/-! ## Attribute policy: `white_list_handler`, `clean`, `clean_meta` -/

/-- `DicomPseudon.white_list_handler`: the whitelist is a tag set parsed
    at startup; its handler tests membership of the element's tag. -/
def white_list_handler (wl : List Tag) (t : Tag) : Bool := wl.contains t

/-- The final statement of `clean`:
    `if cleaned is not None and e.tag in ds and ds[e.tag].value is not None:
       ds[e.tag].value = cleaned`. -/
def setCleaned (ds : Dataset) (t : Tag) (cleaned : Str) : Dataset :=
  match dsGet? ds t with
  | some e => if e.value ≠ EValue.null then dsSetValue ds t (EValue.str cleaned) else ds
  | none => ds

/-- `DicomPseudon.clean`, the per-element policy of the main mapping.
    Branches in source order: whitelisted (leave unchanged, `cleaned`
    stays `None`); required (`cleaned = ''`, then the guarded
    assignment); pixel module (early `return True`); otherwise
    `del ds[e.tag]`, after which the guarded assignment is a no-op since
    the tag is gone.  The boolean is the function's return value. -/
def clean (wl : List Tag) (ds : Dataset) (t : Tag) : Dataset × Bool :=
  if white_list_handler wl t then (ds, true)
  else if REQUIRED_TAGS.contains t then (setCleaned ds t [], false)
  else if PIXEL_MODULE_TAGS.contains t then (ds, true)
  else (setCleaned (dsDel ds t) t REMOVED_TEXT, false)

/-- `DicomPseudon.clean_meta`, the per-element policy of the file-meta
    mapping. -/
def clean_meta (wl : List Tag) (ds : Dataset) (t : Tag) : Dataset × Bool :=
  let white_listed := white_list_handler wl t
  if ALLOWED_FILE_META.contains t then (ds, false)
  else if ¬ white_listed then (dsDel ds t, white_listed)
  else (ds, white_listed)

/-- `ds.walk(partial(self.clean))`. -/
def cleanDS (wl : List Tag) (ds : Dataset) : Dataset := dsWalk (clean wl) ds

/-- `ds.file_meta.walk(self.clean_meta)`. -/
def cleanMetaDS (wl : List Tag) (ds : Dataset) : Dataset := dsWalk (clean_meta wl) ds

/-- Per-tag effect of one `clean` visit on the visited entry (what is
    proved to characterize `cleanDS`). -/
def cleanedEntry (wl : List Tag) (t : Tag) (e : Element) : Option Element :=
  if white_list_handler wl t then some e
  else if REQUIRED_TAGS.contains t then
    some (if e.value = EValue.null then e else { e with value := EValue.str [] })
  else if PIXEL_MODULE_TAGS.contains t then some e
  else none

/-- Per-tag effect of one `clean_meta` visit. -/
def cleanMetaEntry (wl : List Tag) (t : Tag) (e : Element) : Option Element :=
  if ALLOWED_FILE_META.contains t then some e
  else if white_list_handler wl t then some e
  else none

/-! ## Python-level failures

The code can raise: `ValueError` (the explicit raise in `pseudonymize`),
`AttributeError` (keyword access to a missing attribute, or `.strip()`
on a `None`/list value), `TypeError` (iterating a data element whose
value is `None`), and the bare `Exception` raised by `destination`. -/

inductive PyErr where
  | valueError
  | attributeError
  | typeError
  | exception
deriving DecidableEq, Repr

instance {ε α : Type} [DecidableEq ε] [DecidableEq α] : DecidableEq (Except ε α) :=
  fun x y =>
  match x, y with
  | .ok a, .ok b =>
    if h : a = b then .isTrue (congrArg Except.ok h)
    else .isFalse (by intro hc; injection hc with h2; exact h h2)
  | .error a, .error b =>
    if h : a = b then .isTrue (congrArg Except.error h)
    else .isFalse (by intro hc; injection hc with h2; exact h h2)
  | .ok _, .error _ => .isFalse (by intro hc; exact Except.noConfusion hc)
  | .error _, .ok _ => .isFalse (by intro hc; exact Except.noConfusion hc)

/-! ## Quarantine inspector: `check_quarantine`

Each `if ...: return True, reason` block of the source is one rule; a
rule yields `none` when the block falls through, `some (True, reason)`
when it returns, and an error when the block raises.  The chain
evaluates rules in the source's order, stopping at the first decision
or failure, and accepting (`return False, ''`) when all fall through. -/

def qFirst : List (Except PyErr (Option (Bool × Str))) → Except PyErr (Bool × Str)
  | [] => .ok (false, [])
  | r :: rs =>
    match r with
    | .error e => .error e
    | .ok (some res) => .ok res
    | .ok none => qFirst rs

/-- The `if x.VM == 1: x = [x.value]` / `for m in x` pattern: a single
    string value is a one-element sequence, a multi-value iterates its
    entries, and iterating an element whose value is `None` (`VM == 0`)
    raises. -/
def elemSeq (e : Element) : Except PyErr (List (Option Str)) :=
  match e.value with
  | .str s => .ok [some s]
  | .multi vs => .ok vs
  | .null => .error .typeError

/-- `e.value.strip().lower()` with no `None` guard: raises unless the
    value is a single string. -/
def scalarLower (e : Element) : Except PyErr Str :=
  match e.value with
  | .str s => .ok (strLower (strStrip s))
  | _ => .error .attributeError

/-- The guarded series-description text:
    `if SERIES_DESCR in ds and ds[SERIES_DESCR].value is not None`. -/
def seriesDescLower (ds : Dataset) : Except PyErr (Option Str) :=
  match dsGet? ds SERIES_DESCR with
  | none => .ok none
  | some e =>
    match e.value with
    | .null => .ok none
    | .str s => .ok (some (strLower (strStrip s)))
    | .multi _ => .error .attributeError

def seriesPatientProtocolRule (ds : Dataset) : Except PyErr (Option (Bool × Str)) :=
  (seriesDescLower ds).map fun sd =>
    match sd with
    | none => none
    | some s => if strContains s (lit "patient protocol")
                then some (true, lit "patient protocol") else none

def seriesSaveRule (ds : Dataset) : Except PyErr (Option (Bool × Str)) :=
  (seriesDescLower ds).map fun sd =>
    match sd with
    | none => none
    | some s => if strContains s (lit "save")
                then some (true, lit "Likely screen capture") else none

/-- `if m is None or not m.lower() in self.modalities`. -/
def modalityBad (mods : List Str) (m : Option Str) : Bool :=
  match m with
  | none => true
  | some s => ¬ mods.contains (strLower s)

def modalityAllowedRule (mods : List Str) (ds : Dataset) :
    Except PyErr (Option (Bool × Str)) :=
  match dsGet? ds MODALITY with
  | none => .ok none
  | some e => (elemSeq e).map fun vs =>
      if vs.any (modalityBad mods) then some (true, lit "modality not allowed")
      else none

def modalityMissingRule (ds : Dataset) : Except PyErr (Option (Bool × Str)) :=
  match dsGet? ds MODALITY with
  | none => .ok (some (true, lit "Modality missing"))
  | some _ => .ok none

def burntInRule (ds : Dataset) : Except PyErr (Option (Bool × Str)) :=
  match dsGet? ds BURNT_IN with
  | none => .ok none
  | some e =>
    match e.value with
    | .null => .ok none
    | .str s => .ok (if [lit "yes", lit "y"].contains (strLower (strStrip s))
                     then some (true, lit "burnt-in data") else none)
    | .multi _ => .error .attributeError

/-- `if i is not None and 'save' in i.strip().lower()`. -/
def imageTypeSave (i : Option Str) : Bool :=
  match i with
  | none => false
  | some s => strContains (strLower (strStrip s)) (lit "save")

def imageTypeRule (ds : Dataset) : Except PyErr (Option (Bool × Str)) :=
  match dsGet? ds IMAGE_TYPE with
  | none => .ok none
  | some e => (elemSeq e).map fun vs =>
      if vs.any imageTypeSave then some (true, lit "Likely screen capture")
      else none

def manufacturerRule (ds : Dataset) : Except PyErr (Option (Bool × Str)) :=
  match dsGet? ds MANUFACTURER with
  | none => .ok none
  | some e => (scalarLower e).map fun m =>
      if strContains m (lit "north american imaging, inc") ||
         strContains m (lit "pacsgear")
      then some (true, lit "Manufacturer is suspect") else none

def modelNameRule (ds : Dataset) : Except PyErr (Option (Bool × Str)) :=
  match dsGet? ds MANUFACTURER_MODEL_NAME with
  | none => .ok none
  | some e => (scalarLower e).map fun m =>
      if strContains m (lit "the dicom box")
      then some (true, lit "Manufacturer model name is suspect") else none

/-- `DicomPseudon.check_quarantine`, in the source's rule order: the
    modality-not-allowed block (lines 253-259) comes before the
    modality-missing block (lines 261-262). -/
def check_quarantine (mods : List Str) (ds : Dataset) : Except PyErr (Bool × Str) :=
  qFirst [seriesPatientProtocolRule ds, seriesSaveRule ds,
          modalityAllowedRule mods ds, modalityMissingRule ds,
          burntInRule ds, imageTypeRule ds,
          manufacturerRule ds, modelNameRule ds]

/-! ## The inspector as the specification words it

A total decision function written from the claim: case-insensitive text
checks, first match wins, in the spec's listed order (modality missing
*before* modality not allowed). -/

/-- The persistent store: the `accession_numbers` table as rows
    `(original, serial)` in insertion (rowid) order, and the
    `fingerprints` table as a hash list.  `original` can be SQL NULL
    (a dataset whose accession value is `None`). -/
structure Store where
  accTable : List (Option Str × Option Str)
  fps : List Str
deriving DecidableEq, Repr

/-- SQL `LIKE '%inv%'`: substring containment, ASCII case-insensitive. -/
def likeContains (s inv : Str) : Bool := strContains (strLower s) (strLower inv)

/-- `Index.get`: first row with `original = acc`, returning its serial;
    `None` when there is no such row or its serial is NULL.  SQL `=`
    never matches a NULL parameter. -/
def index_get (st : Store) (acc : Option Str) : Option Str :=
  match acc with
  | none => none
  | some a =>
    match st.accTable.find? (fun r => r.1 = some a) with
    | none => none
    | some r => r.2

/-- `Index.search` with pattern `'%' + inv + '%'`: the first row whose
    original matches, returning the original. -/
def index_search (st : Store) (inv : Str) : Option Str :=
  (st.accTable.find? (fun r =>
    match r.1 with
    | some s => likeContains s inv
    | none => false)).bind (fun r => r.1)

/-- `Index.insert` (`INSERT OR IGNORE`, `UNIQUE(original)`; SQL UNIQUE
    never blocks NULLs). -/
def index_insert (st : Store) (acc : Option Str) : Store :=
  match acc with
  | some a =>
    if st.accTable.any (fun r => r.1 = some a) then st
    else { st with accTable := st.accTable ++ [(some a, none)] }
  | none => { st with accTable := st.accTable ++ [(none, none)] }

/-- `Index.update`: set the serial of every row with this original. -/
def index_update (st : Store) (acc serial : Str) : Store :=
  { st with accTable :=
      st.accTable.map (fun r => if r.1 = some acc then (r.1, some serial) else r) }

/-- `Index.get_hash`. -/
def get_hash (st : Store) (h : Str) : Option Str := st.fps.find? (fun x => x = h)

/-- `Index.insert_hash` (`INSERT OR IGNORE`, `UNIQUE(hash)`). -/
def insert_hash (st : Store) (h : Str) : Store :=
  if st.fps.contains h then st else { st with fps := st.fps ++ [h] }

/-- `DicomPseudon.fingerprint_exists` (under the store lock). -/
def fingerprint_exists (st : Store) (h : Str) : Bool := (get_hash st h).isSome

/-- `DicomPseudon.register_fingerprint` (under the store lock). -/
def register_fingerprint (st : Store) (h : Str) : Store := insert_hash st h

/-! ## Files and datasets on disk -/

/-- A parsed DICOM file: the file-meta mapping and the main mapping. -/
structure DFile where
  file_meta : Dataset
  main : Dataset
deriving DecidableEq, Repr

/-- Keyword attribute access (`ds.AccessionNumber`, `ds.PixelData`,
    `ds.SOPInstanceUID`): the value when the tag is present, otherwise
    `AttributeError`. -/
def attr (ds : Dataset) (t : Tag) : Except PyErr EValue :=
  match dsGet? ds t with
  | none => .error .attributeError
  | some e => .ok e.value

/-! ## Fingerprint engine: `get_fingerprint` -/

def jsonOfOptStr : Option Str → Str
  | none => lit "null"
  | some s => lit "\x22" ++ s ++ lit "\x22"

def jsonOfValue : EValue → Str
  | .null => lit "null"
  | .str s => jsonOfOptStr (some s)
  | .multi vs => lit "[" ++ List.intercalate (lit ",") (vs.map jsonOfOptStr) ++ lit "]"

/-- `ds.to_json()`: a canonical serialization of the element mapping.
    The development relies only on its being a deterministic function of
    the mapping. -/
def to_json (ds : Dataset) : Str :=
  List.intercalate (lit ",") (ds.map (fun p =>
    lit "(" ++ natStr p.1.1 ++ lit "," ++ natStr p.1.2 ++ lit "):" ++
    p.2.vr ++ lit ":" ++ jsonOfValue p.2.value))

/-- `DicomPseudon.get_fingerprint` with `preserve_bytes=True`:
    `bytes = ds.PixelData` (`AttributeError` when the tag is absent),
    then `ds[PIXEL_DATA].value = ''`, then hash the JSON serialization.
    `md5` is deterministic in its input, so the digest is modelled as
    the serialized input itself; the code compares digests only for
    equality.  Returns (hash, saved pixel bytes, the mutated dataset
    whose pixel value is now `''`). -/
def get_fingerprint (d : DFile) : Except PyErr (Str × EValue × DFile) :=
  match attr d.main PIXEL_DATA with
  | .error e => .error e
  | .ok bytes =>
    let main2 := dsSetValue d.main PIXEL_DATA (EValue.str [])
    .ok (to_json main2, bytes, { d with main := main2 })

/-! ## Path guard and quarantine copy -/

/-- `DicomPseudon.destination`: raise unless `dest` does *not* start
    with `root` (string prefix) and `source` does; return
    `os.path.normpath(dest)`. -/
def destination (source dest root : Str) : Except PyErr Str :=
  if strStartsWith dest root then .error .exception
  else if ¬ strStartsWith source root then .error .exception
  else .ok (normpath dest)

/-- The mutable world of one run: the store, the output tree (path ↦
    written dataset) and the quarantine tree (path ↦ copied source
    bytes, with the reason recorded in the log). -/
structure PState where
  store : Store
  output : List (Str × DFile)
  quarantine : List (Str × Str × Str)
deriving DecidableEq, Repr

/-- `shutil.copyfile` / `ds.save_as`: overwrite the path or create it. -/
def fsWrite (out : List (Str × DFile)) (path : Str) (d : DFile) : List (Str × DFile) :=
  if out.any (fun p => p.1 = path) then
    out.map (fun p => if p.1 = path then (path, d) else p)
  else out ++ [(path, d)]

/-- `DicomPseudon.quarantine_file`: copy the source bytes to
    `destination(filepath, quarantine, ident_dir)` + basename. -/
def quarantine_file (st : PState) (filepath raw quarantineRoot identDir reason : Str) :
    Except PyErr PState :=
  match destination filepath quarantineRoot identDir with
  | .error e => .error e
  | .ok dir =>
    .ok { st with quarantine :=
            st.quarantine ++ [(pathJoin dir (basename filepath), raw, reason)] }

/-! ## `pseudonymize` and `walk_dicom` -/

/-- The accession value handed to the store lookup: a string value as
    itself, a `None` value as SQL NULL. -/
def accValue : EValue → Option Str
  | .str s => some s
  | _ => none

/-- The reason logged when `pseudonymize` raises `ValueError` (the
    source interpolates the exception text after this sentence). -/
def NO_SERIAL_REASON : Str :=
  lit "Error running pseudonymize function. There may be no serial number for the accession number in this DICOM file."

/-- `DicomPseudon.pseudonymize` without the store lock (the lock only
    serializes the lookup): look up the serial for `ds.AccessionNumber`,
    raising `ValueError` when the store yields none; then fix the
    file-meta SOP instance UID and walk both mappings with the policy. -/
def pseudonymize (wl : List Tag) (store : Store) (d : DFile) :
    Except PyErr (DFile × Str) :=
  match attr d.main ACCESSION_NUMBER with
  | .error e => .error e
  | .ok av =>
    match av with
    | .multi _ => .error .exception
    | _ =>
      match index_get store (accValue av) with
      | none => .error .valueError
      | some serial_num =>
        match (if dsMem d.file_meta MEDIA_STORAGE_SOP_INSTANCE_UID
               then (attr d.main SOP_INSTANCE_UID).map some
               else .ok none) with
        | .error e => .error e
        | .ok uid? =>
          let meta1 := match uid? with
            | some uid => dsSetValue d.file_meta MEDIA_STORAGE_SOP_INSTANCE_UID uid
            | none => d.file_meta
          .ok ({ file_meta := cleanMetaDS wl meta1, main := cleanDS wl d.main },
               serial_num)

/-- Run configuration: whitelist, allowed modalities (lower-cased at
    startup), and the three directory roots. -/
structure Config where
  wl : List Tag
  modalities : List Str
  identDir : Str
  cleanDir : Str
  quarantineRoot : Str
deriving Repr

/-- `path` is directly inside directory `dir` (an `os.listdir` entry
    that `os.path.isfile` accepts, in the model's flat file map). -/
def isDirectChild (dir path : Str) : Bool :=
  strStartsWith path (dir ++ lit "/") &&
  ¬ (path.drop (dir.length + 1)).contains '/'

/-- `len([name for name in os.listdir(d) if isfile(join(d, name))])`. -/
def countFilesIn (dir : Str) (out : List (Str × DFile)) : Nat :=
  (out.filter (fun p => isDirectChild dir p.1)).length

/-- `DicomPseudon.walk_dicom`: quarantine check, serial resolution
    (quarantining on `ValueError`), policy application, audit stamping,
    numbered write, fingerprint registration.  `True` means written. -/
def walk_dicom (cfg : Config) (st : PState) (d : DFile)
    (source_path raw fingerprint : Str) : Except PyErr (PState × Bool) :=
  match check_quarantine cfg.modalities d.main with
  | .error e => .error e
  | .ok (move, reason) =>
    if move then
      (quarantine_file st source_path raw cfg.quarantineRoot cfg.identDir
        reason).map (fun st2 => (st2, false))
    else
      match pseudonymize cfg.wl st.store d with
      | .error .valueError =>
        (quarantine_file st source_path raw cfg.quarantineRoot cfg.identDir
          NO_SERIAL_REASON).map (fun st2 => (st2, false))
      | .error e => .error e
      | .ok (d2, serial_num) =>
        let rel_destination_dir := pathJoin cfg.cleanDir serial_num
        match destination source_path rel_destination_dir cfg.identDir with
        | .error e => .error e
        | .ok destination_dir =>
          let main3 := dsSetValue d2.main ACCESSION_NUMBER (EValue.str serial_num)
          let main4 := dsSet main3 (0x12, 0x62)
            { vr := lit "CS", value := EValue.str (lit "YES") }
          let main5 := dsSet main4 (0x12, 0x63)
            { vr := lit "LO", value := EValue.str DE_IDENTIFICATION_METHOD }
          let count := countFilesIn destination_dir st.output
          let clean_name := pathJoin destination_dir (natStr (count + 1) ++ lit ".dcm")
          let st2 := { st with
            output := fsWrite st.output clean_name { d2 with main := main5 } }
          .ok ({ st2 with store := register_fingerprint st2.store fingerprint },
               true)

/-! ## The per-file pipeline step (`run_worker` body) and the run -/

/-- One input file of the walked tree: the directory and name given by
    `os.walk`, the on-disk bytes, and the codec's parse result (`none`
    for `InvalidDicomError`). -/
structure InputFile where
  root : Str
  filename : Str
  raw : Str
  parsed : Option DFile
deriving DecidableEq, Repr

/-- What became of one file. -/
inductive Outcome where
  | hidden
  | invalid
  | priorSkip
  | quarantined
  | written
deriving DecidableEq, Repr

/-- The body of `run_worker` for one queue task.  `none` models an
    uncaught exception (the worker thread dies; nothing is written or
    copied).  The model's file system cannot fail, so the `IOError`
    abort path does not arise. -/
def processFile (cfg : Config) (skip_prior : Bool) (st : PState) (f : InputFile) :
    Option (PState × Outcome) :=
  if strStartsWith f.filename (lit ".") then some (st, .hidden)
  else
    let source_path := pathJoin f.root f.filename
    match f.parsed with
    | none =>
      match quarantine_file st source_path f.raw cfg.quarantineRoot cfg.identDir
          (lit "Could not read DICOM file.") with
      | .error _ => none
      | .ok st2 => some (st2, .invalid)
    | some ds =>
      match get_fingerprint ds with
      | .error _ => none
      | .ok (fp, bytes, dsCleared) =>
        if skip_prior && fingerprint_exists st.store fp then some (st, .priorSkip)
        else
          let ds2 := { dsCleared with
            main := dsSetValue dsCleared.main PIXEL_DATA bytes }
          match walk_dicom cfg st ds2 source_path f.raw fp with
          | .error _ => none
          | .ok (st2, true) => some (st2, .written)
          | .ok (st2, false) => some (st2, .quarantined)

/-- A whole run over the walked file list (one worker; the queue is
    drained in order).  `none` when some file kills the worker. -/
def runPipeline (cfg : Config) (skip_prior : Bool) :
    PState → List InputFile → Option PState
  | st, [] => some st
  | st, f :: fs =>
    match processFile cfg skip_prior st f with
    | none => none
    | some (st2, _) => runPipeline cfg skip_prior st2 fs

/-! ## `build_index`: accession indexing plus the link resolver -/

/-- `DicomPseudon.build_index`: register every discovered accession,
    then process links rows in order — a repeated invitation number is
    skipped, otherwise resolve the accession by `LIKE` containment and
    assign the serial. -/
def build_index (st0 : Store) (accs : List (Option Str)) (links : List (Str × Str)) :
    Store :=
  let st1 := accs.foldl index_insert st0
  (links.foldl (fun (p : Store × List Str) row =>
    if p.2.contains row.1 then p
    else
      let seen2 := p.2 ++ [row.1]
      match index_search p.1 row.1 with
      | none => (p.1, seen2)
      | some acc => (index_update p.1 acc row.2, seen2)) (st1, [])).1

/-! ## Derived predicates used by the theorems -/

/-- The write decision of `walk_dicom`, as a pure function of the
    dataset, the source path and the accession table: it does not depend
    on the output tree or the fingerprint set. -/
def walkWrites (cfg : Config) (accT : List (Option Str × Option Str))
    (d : DFile) (source : Str) : Bool :=
  match check_quarantine cfg.modalities d.main with
  | .error _ => false
  | .ok (move, _) =>
    if move then false
    else
      match pseudonymize cfg.wl { accTable := accT, fps := [] } d with
      | .error _ => false
      | .ok (_, serial_num) =>
        match destination source (pathJoin cfg.cleanDir serial_num) cfg.identDir with
        | .error _ => false
        | .ok _ => true

/-- The fingerprint a file would get (its parse and pixel access
    succeeding). -/
def fpOf (f : InputFile) : Option Str :=
  f.parsed.bind (fun ds =>
    match get_fingerprint ds with
    | .ok r => some r.1
    | .error _ => none)

/-- Whether `run_worker` would reach the write branch for this file,
    as a pure function of the file and the accession table. -/
def fileWrites (cfg : Config) (accT : List (Option Str × Option Str))
    (f : InputFile) : Bool :=
  match f.parsed with
  | none => false
  | some ds =>
    match get_fingerprint ds with
    | .error _ => false
    | .ok (_, bytes, dsC) =>
      walkWrites cfg accT { dsC with main := dsSetValue dsC.main PIXEL_DATA bytes }
        (pathJoin f.root f.filename)

/-- `p` lies under, or equals, `root`, read as paths (for roots written
    without a trailing slash). -/
def pathUnderEq (root p : Str) : Bool :=
  p = root || strStartsWith p (root ++ lit "/")

/-- No serial stored in the accession table is an absolute path. -/
def storeSerialsRelative (st : Store) : Bool :=
  st.accTable.all (fun r =>
    match r.2 with
    | none => true
    | some s => ¬ strStartsWith s (lit "/"))

/-! ## Concrete end-to-end scenario data (spec section 8) -/

def scnCfg : Config :=
  { wl := [], modalities := [lit "mr"], identDir := lit "/in",
    cleanDir := lit "/out", quarantineRoot := lit "/q" }

def scnMain : Dataset :=
  [(ACCESSION_NUMBER, { vr := lit "SH", value := EValue.str (lit "R9BF8PC1GE") }),
   (MODALITY, { vr := lit "CS", value := EValue.str (lit "mr") }),
   (PIXEL_DATA, { vr := lit "OW", value := EValue.str (lit "PX") })]

/-- The store after indexing the one discovered accession and resolving
    the links row `("BF8PC1G", "abc123")`. -/
def scnStore : Store :=
  build_index { accTable := [], fps := [] } [some (lit "R9BF8PC1GE")]
    [(lit "BF8PC1G", lit "abc123")]

def scnFile : InputFile :=
  { root := lit "/in", filename := lit "f.dcm", raw := lit "RAW",
    parsed := some { file_meta := [], main := scnMain } }

/-- The dataset the pipeline writes in the scenario: accession rewritten
    to the serial, pixel data intact, audit attributes stamped. -/
def scnWritten : DFile :=
  { file_meta := [],
    main := [(ACCESSION_NUMBER, { vr := lit "SH", value := EValue.str (lit "abc123") }),
             (PIXEL_DATA, { vr := lit "OW", value := EValue.str (lit "PX") }),
             ((0x12, 0x62), { vr := lit "CS", value := EValue.str (lit "YES") }),
             ((0x12, 0x63), { vr := lit "LO", value := EValue.str DE_IDENTIFICATION_METHOD })] }

/-- The scenario file's fingerprint: the serialization of its main
    mapping with the pixel value cleared. -/
def scnFp : Str := to_json (dsSetValue scnMain PIXEL_DATA (EValue.str []))

/-- The pipeline state after processing the scenario file once. -/
def scnSt1 : PState :=
  { store := { accTable := [(some (lit "R9BF8PC1GE"), some (lit "abc123"))],
               fps := [scnFp] },
    output := [(lit "/out/abc123/1.dcm", scnWritten)],
    quarantine := [] }

/-! ## The inspector agrees with the spec's reading on safe values -/

theorem dsGet?_del (ds : Dataset) (t u : Tag) :
    dsGet? (dsDel ds t) u = if u = t then none else dsGet? ds u := by
  induction ds with
  | nil => simp [dsDel, dsGet?]
  | cons p ds ih =>
    by_cases hp : p.1 = t <;> by_cases hpu : p.1 = u <;>
      rcases eq_or_ne u t with rfl | hu <;>
      simp_all [dsDel, dsGet?]

theorem dsGet?_setValue (ds : Dataset) (t : Tag) (v : EValue) (u : Tag) :
    dsGet? (dsSetValue ds t v) u =
      if u = t then (dsGet? ds t).map (fun e => { e with value := v })
      else dsGet? ds u := by
  induction ds with
  | nil => simp [dsSetValue, dsGet?]
  | cons p ds ih =>
    by_cases hp : p.1 = t <;> by_cases hpu : p.1 = u <;>
      rcases eq_or_ne u t with rfl | hu <;>
      simp_all [dsSetValue, dsGet?]

theorem dsGet?_isSome_iff (ds : Dataset) (t : Tag) :
    (dsGet? ds t).isSome ↔ t ∈ dsKeys ds := by
  induction ds with
  | nil => simp [dsGet?, dsKeys]
  | cons p ds ih =>
    by_cases hp : p.1 = t
    · simp [dsGet?, dsKeys, hp]
    · simp only [dsGet?, hp, ite_false, dsKeys, List.map_cons, List.mem_cons, ih]
      exact ⟨Or.inr, fun h => h.elim (fun h => absurd h.symm hp) id⟩

theorem dsMem_iff (ds : Dataset) (t : Tag) : dsMem ds t ↔ t ∈ dsKeys ds := by
  simpa [dsMem] using dsGet?_isSome_iff ds t

/-! ## Characterizing one `walk` pass of a tag-local callback -/

theorem dsGet?_setCleaned (ds : Dataset) (t : Tag) (c : Str) (u : Tag) :
    dsGet? (setCleaned ds t c) u =
      if u = t then
        (dsGet? ds t).map fun e =>
          if e.value = EValue.null then e else { e with value := EValue.str c }
      else dsGet? ds u := by
  unfold setCleaned
  rcases hg : dsGet? ds t with _ | e
  · by_cases hu : u = t <;> simp [hu, hg]
  · by_cases hn : e.value = EValue.null <;> by_cases hu : u = t <;>
      simp [hn, hu, hg, dsGet?_setValue]

theorem clean_get_self (wl : List Tag) (ds : Dataset) (t : Tag) :
    dsGet? (clean wl ds t).1 t = (dsGet? ds t).bind (cleanedEntry wl t) := by
  rcases hg : dsGet? ds t with _ | e
  · by_cases h1 : t ∈ wl <;> by_cases h2 : t ∈ REQUIRED_TAGS <;>
      by_cases h3 : t ∈ PIXEL_MODULE_TAGS <;>
      simp [clean, setCleaned, cleanedEntry, white_list_handler, hg,
        dsGet?_del, h1, h2, h3]
  · by_cases h1 : t ∈ wl <;> by_cases h2 : t ∈ REQUIRED_TAGS <;>
      by_cases h3 : t ∈ PIXEL_MODULE_TAGS <;>
      by_cases hv : e.value = EValue.null <;>
      simp [clean, setCleaned, cleanedEntry, white_list_handler, hg,
        dsGet?_del, dsGet?_setValue, h1, h2, h3, hv]

theorem clean_get_ne (wl : List Tag) (ds : Dataset) (t u : Tag) (h : u ≠ t) :
    dsGet? (clean wl ds t).1 u = dsGet? ds u := by
  have hdel : dsGet? (dsDel ds t) u = dsGet? ds u := by
    rw [dsGet?_del, if_neg h]
  by_cases h1 : t ∈ wl <;> by_cases h2 : t ∈ REQUIRED_TAGS <;>
    by_cases h3 : t ∈ PIXEL_MODULE_TAGS <;>
    rcases hg : dsGet? ds t with _ | e <;>
    rcases hgd : dsGet? (dsDel ds t) t with _ | e2 <;>
    simp [clean, setCleaned, white_list_handler, hg, hgd, hdel,
      dsGet?_del, dsGet?_setValue, h1, h2, h3, h] <;>
    split <;> simp [dsGet?_setValue, h, hdel]

theorem clean_meta_get_self (wl : List Tag) (ds : Dataset) (t : Tag) :
    dsGet? (clean_meta wl ds t).1 t = (dsGet? ds t).bind (cleanMetaEntry wl t) := by
  by_cases h1 : t ∈ ALLOWED_FILE_META <;> by_cases h2 : t ∈ wl <;>
    rcases hg : dsGet? ds t with _ | e <;>
    simp [clean_meta, cleanMetaEntry, white_list_handler, h1, h2, dsGet?_del, hg]

theorem clean_meta_get_ne (wl : List Tag) (ds : Dataset) (t u : Tag) (h : u ≠ t) :
    dsGet? (clean_meta wl ds t).1 u = dsGet? ds u := by
  by_cases h1 : t ∈ ALLOWED_FILE_META <;> by_cases h2 : t ∈ wl <;>
    simp [clean_meta, white_list_handler, h1, h2, dsGet?_del, h]

theorem insertSorted_perm (x : Tag) (l : List Tag) :
    (insertSorted x l).Perm (x :: l) := by
  induction l with
  | nil => exact List.Perm.refl _
  | cons y t ih =>
    unfold insertSorted
    by_cases h : tagLE x y
    · simp [h]
    · simp only [h, if_false, Bool.false_eq_true]
      exact (ih.cons y).trans (List.Perm.swap x y t)

theorem sortTags_perm (l : List Tag) : (sortTags l).Perm l := by
  induction l with
  | nil => exact List.Perm.refl _
  | cons a l ih =>
    exact (insertSorted_perm a (sortTags l)).trans (ih.cons a)

/-- A `walk` whose callback reads and rewrites only the visited tag acts
    independently on every entry. -/
theorem dsWalk_get (f : Dataset → Tag → Dataset × Bool)
    (spec : Tag → Element → Option Element)
    (hself : ∀ ds t, dsGet? (f ds t).1 t = (dsGet? ds t).bind (spec t))
    (hframe : ∀ ds t u, u ≠ t → dsGet? (f ds t).1 u = dsGet? ds u)
    (ds : Dataset) (h : dsWF ds) (t : Tag) :
    dsGet? (dsWalk f ds) t = (dsGet? ds t).bind (spec t) := by
  have key : ∀ (l : List Tag) (d : Dataset), l.Nodup → ∀ u,
      dsGet? (l.foldl (fun acc v => (f acc v).1) d) u =
        if u ∈ l then (dsGet? d u).bind (spec u) else dsGet? d u := by
    intro l
    induction l with
    | nil => intro d _ u; simp
    | cons v l ih =>
      intro d hnd u
      rw [List.foldl_cons]
      rcases List.nodup_cons.mp hnd with ⟨hv, hl⟩
      rcases eq_or_ne u v with rfl | hne
      · rw [ih _ hl u, if_neg hv, hself, if_pos (List.mem_cons_self u l)]
      · rw [ih _ hl u, hframe d v u hne]
        by_cases hm : u ∈ l <;> simp [hm, hne]
  unfold dsWalk
  have hnd : (sortTags (dsKeys ds)).Nodup := ((sortTags_perm _).symm.nodup h)
  rw [key _ ds hnd t]
  by_cases hm : t ∈ sortTags (dsKeys ds)
  · rw [if_pos hm]
  · rw [if_neg hm]
    have : t ∉ dsKeys ds := fun hc => hm (((sortTags_perm _).mem_iff).mpr hc)
    have hnone : dsGet? ds t = none := by
      rcases hg : dsGet? ds t with _ | e
      · rfl
      · exact absurd ((dsGet?_isSome_iff ds t).mp (by simp [hg])) this
    simp [hnone]

/-- `cleanDS` rewrites every entry of a well-formed dataset according to
    the policy precedence captured by `cleanedEntry`. -/
theorem cleanDS_get (wl : List Tag) (ds : Dataset) (h : dsWF ds) (t : Tag) :
    dsGet? (cleanDS wl ds) t = (dsGet? ds t).bind (cleanedEntry wl t) :=
  dsWalk_get (clean wl) (cleanedEntry wl)
    (clean_get_self wl) (clean_get_ne wl) ds h t

/-- `cleanMetaDS` rewrites every meta entry according to
    `cleanMetaEntry`. -/
theorem cleanMetaDS_get (wl : List Tag) (ds : Dataset) (h : dsWF ds) (t : Tag) :
    dsGet? (cleanMetaDS wl ds) t = (dsGet? ds t).bind (cleanMetaEntry wl t) :=
  dsWalk_get (clean_meta wl) (cleanMetaEntry wl)
    (clean_meta_get_self wl) (clean_meta_get_ne wl) ds h t

/-! ## Claim C1: main-mapping policy precedence -/

/-- C1 (amended): for every element of a well-formed main mapping,
policy application obeys the precedence: tag in whitelist → element
unchanged; else tag required → tag retained, its value set to the empty
string when the original value is non-null and left null otherwise (the
null case is where the claim as stated fails); else tag in the
pixel-module set → element unchanged, value identical; else the tag is
deleted. -/
theorem C1_clean_precedence (wl : List Tag) (ds : Dataset) (h : dsWF ds)
    (t : Tag) (e : Element) (hget : dsGet? ds t = some e) :
    dsGet? (cleanDS wl ds) t =
      if white_list_handler wl t then some e
      else if REQUIRED_TAGS.contains t then
        some (if e.value = EValue.null then e else { e with value := EValue.str [] })
      else if PIXEL_MODULE_TAGS.contains t then some e
      else none := by
  rw [cleanDS_get wl ds h t, hget]
  rfl

/-- C1 witness: a required, non-whitelisted accession number with a
non-null value is blanked to the empty string and retained. -/
theorem C1_clean_precedence_witness :
    dsGet? (cleanDS []
        [(ACCESSION_NUMBER, { vr := lit "SH", value := EValue.str (lit "R9") })])
        ACCESSION_NUMBER =
      some { vr := lit "SH", value := EValue.str [] } := by
  have h := C1_clean_precedence []
    [(ACCESSION_NUMBER, { vr := lit "SH", value := EValue.str (lit "R9") })]
    (by decide) ACCESSION_NUMBER
    { vr := lit "SH", value := EValue.str (lit "R9") } (by decide)
  rw [h]; decide

/-- C1 counterexample: a required, non-whitelisted tag whose value is
null is retained with the null value, not set to the empty string as the
claim states (`clean` guards the assignment with
`ds[e.tag].value is not None`). -/
theorem C1_required_null_counterexample :
    dsGet? (cleanDS [] [(ACCESSION_NUMBER, { vr := lit "SH", value := EValue.null })])
        ACCESSION_NUMBER = some { vr := lit "SH", value := EValue.null } ∧
    dsGet? (cleanDS [] [(ACCESSION_NUMBER, { vr := lit "SH", value := EValue.null })])
        ACCESSION_NUMBER ≠ some { vr := lit "SH", value := EValue.str [] } := by
  decide

/-! ## Claim C7: file-meta policy -/

/-- C7: for every element of a well-formed file-meta mapping, policy
application leaves the element unchanged when its tag is in the fixed
allowed-file-meta set, leaves a whitelisted element unchanged, and
deletes every other element outright — the right-hand side never blanks
and never consults the required-tag or pixel-module sets. -/
theorem C7_clean_meta_policy (wl : List Tag) (ds : Dataset) (h : dsWF ds)
    (t : Tag) (e : Element) (hget : dsGet? ds t = some e) :
    dsGet? (cleanMetaDS wl ds) t =
      if ALLOWED_FILE_META.contains t then some e
      else if white_list_handler wl t then some e
      else none := by
  rw [cleanMetaDS_get wl ds h t, hget]
  rfl

/-- C7 witness: the study-date tag is in the required set, yet in the
file-meta mapping it is deleted outright (not blanked), while an
allowed-file-meta tag is kept unchanged. -/
theorem C7_clean_meta_policy_witness :
    dsGet? (cleanMetaDS []
        [((0x8, 0x20), { vr := lit "DA", value := EValue.str (lit "20200101") })])
        (0x8, 0x20) = none ∧
    dsGet? (cleanMetaDS []
        [((0x2, 0x10), { vr := lit "UI", value := EValue.str (lit "1.2") })])
        (0x2, 0x10) = some { vr := lit "UI", value := EValue.str (lit "1.2") } := by
  constructor
  · have h := C7_clean_meta_policy []
      [((0x8, 0x20), { vr := lit "DA", value := EValue.str (lit "20200101") })]
      (by decide) (0x8, 0x20)
      { vr := lit "DA", value := EValue.str (lit "20200101") } (by decide)
    rw [h]; decide
  · have h := C7_clean_meta_policy []
      [((0x2, 0x10), { vr := lit "UI", value := EValue.str (lit "1.2") })]
      (by decide) (0x2, 0x10)
      { vr := lit "UI", value := EValue.str (lit "1.2") } (by decide)
    rw [h]; decide

/-! ## Claim C2: the quarantine inspector -/

/-- C4 (amended): whenever the path guard passes, the quarantine copy
is placed at `normpath(quarantine_root)/<basename(filepath)>` — the
file's directories relative to the input root are dropped, not
preserved as the claim states — and the copied bytes are the source
bytes verbatim. -/
theorem C4_quarantine_flat_copy (st : PState) (filepath raw qroot ident reason : Str)
    (h1 : strStartsWith qroot ident = false)
    (h2 : strStartsWith filepath ident = true) :
    quarantine_file st filepath raw qroot ident reason =
      .ok { st with quarantine := st.quarantine ++
              [(pathJoin (normpath qroot) (basename filepath), raw, reason)] } := by
  unfold quarantine_file destination
  simp [h1, h2]

/-- C4 witness: the flat placement at a concrete call. -/
theorem C4_quarantine_flat_copy_witness :
    quarantine_file { store := { accTable := [], fps := [] }, output := [], quarantine := [] }
        (lit "/in/f.dcm") (lit "BYTES") (lit "/q") (lit "/in") (lit "r") =
      .ok { store := { accTable := [], fps := [] }, output := [],
            quarantine := [(pathJoin (normpath (lit "/q")) (basename (lit "/in/f.dcm")),
                            lit "BYTES", lit "r")] } :=
  C4_quarantine_flat_copy _ _ _ _ _ _ (by decide) (by decide)

/-- C4 counterexample: for input root `/in`, source `/in/a/b.dcm` and
quarantine root `/q`, the copy lands at `/q/b.dcm` with the bytes
preserved — not at the claimed `quarantine_root/<relative-path>/<filename>`
path `/q/a/b.dcm`. -/
theorem C4_relative_path_counterexample :
    quarantine_file { store := { accTable := [], fps := [] }, output := [], quarantine := [] }
        (lit "/in/a/b.dcm") (lit "BYTES") (lit "/q") (lit "/in") (lit "r") =
      .ok { store := { accTable := [], fps := [] }, output := [],
            quarantine := [(lit "/q/b.dcm", lit "BYTES", lit "r")] } ∧
    lit "/q/b.dcm" ≠ lit "/q/a/b.dcm" := by
  decide

/-! ## Claim C9: the destination path guard -/

theorem strStartsWith_append (a b : Str) : strStartsWith (a ++ b) a = true := by
  rw [strStartsWith, List.isPrefixOf_iff_prefix]
  exact List.prefix_append a b

theorem strStartsWith_trans (a b c : Str) (h1 : strStartsWith b a = true)
    (h2 : strStartsWith c b = true) : strStartsWith c a = true := by
  rw [strStartsWith, List.isPrefixOf_iff_prefix] at h1 h2 ⊢
  exact h1.trans h2

theorem pathUnderEq_startsWith (root p : Str) (h : pathUnderEq root p = true) :
    strStartsWith p root = true := by
  rw [pathUnderEq, Bool.or_eq_true] at h
  rcases h with h | h
  · rw [strStartsWith, List.isPrefixOf_iff_prefix]
    exact (decide_eq_true_eq.mp h) ▸ List.prefix_refl p
  · exact strStartsWith_trans root (root ++ lit "/") p (strStartsWith_append _ _) h

theorem pathJoin_startsWith (a b : Str) (hb : strStartsWith b (lit "/") = false) :
    strStartsWith (pathJoin a b) a = true := by
  unfold pathJoin
  rw [hb]
  by_cases he : a = [] ∨ a.getLast? = some '/'
  · simp only [he, if_true, if_false, Bool.false_eq_true]
    exact strStartsWith_append a b
  · simp only [he, if_false, Bool.false_eq_true]
    rw [show a ++ lit "/" ++ b = a ++ (lit "/" ++ b) from by simp]
    exact strStartsWith_append a _

/-- A successful path-guard call returns the normalized destination. -/
theorem destination_ok (s d r x : Str) (h : destination s d r = .ok x) :
    x = normpath d := by
  unfold destination at h
  by_cases h1 : strStartsWith d r = true
  · rw [if_pos h1] at h
    exact absurd h (by simp)
  · rw [if_neg h1] at h
    by_cases h2 : strStartsWith s r = true
    · rw [if_neg (by simp [h2])] at h
      exact (Except.ok.inj h).symm
    · rw [if_pos (by simp [h2])] at h
      exact absurd h (by simp)

/-- A successful quarantine copy appends exactly one entry: the source
bytes at `normpath(quarantine_root)/<basename>`. -/
theorem quarantine_file_ok (st : PState) (filepath raw qroot ident reason : Str)
    (st3 : PState) (h : quarantine_file st filepath raw qroot ident reason = .ok st3) :
    st3 = { st with quarantine := st.quarantine ++
              [(pathJoin (normpath qroot) (basename filepath), raw, reason)] } := by
  unfold quarantine_file at h
  rcases hd : destination filepath qroot ident with e | dir
  · rw [hd] at h
    exact absurd h (by simp)
  · rw [hd] at h
    have hdir := destination_ok _ _ _ _ hd
    have h3 := Except.ok.inj h
    rw [← h3, hdir]

/-- A serial returned by a store lookup is one of the stored serials. -/
theorem index_get_relative (st : Store) (acc : Option Str) (s : Str)
    (hget : index_get st acc = some s) (hrel : storeSerialsRelative st = true) :
    strStartsWith s (lit "/") = false := by
  rcases acc with _ | a
  · simp [index_get] at hget
  · simp only [index_get] at hget
    rcases hf : st.accTable.find? (fun r => r.1 = some a) with _ | r <;>
      simp only [hf] at hget
    · exact absurd hget (by simp)
    · have hmem := List.mem_of_find?_eq_some hf
      have := (List.all_eq_true.mp hrel) r hmem
      rw [hget] at this
      simpa using this

/-- A successful `pseudonymize` took its serial from the store. -/
theorem pseudonymize_serial_from_store (wl : List Tag) (store : Store) (d : DFile)
    (d2 : DFile) (s : Str) (h : pseudonymize wl store d = .ok (d2, s)) :
    ∃ acc, index_get store acc = some s := by
  unfold pseudonymize at h
  rcases hat : attr d.main ACCESSION_NUMBER with e | av <;> simp only [hat] at h
  · simp at h
  · rcases av with _ | sv | vs
    · rcases hg : index_get store (accValue EValue.null) with _ | serial
      · simp [hg] at h
      · simp only [hg] at h
        refine ⟨accValue EValue.null, ?_⟩
        rw [hg]
        rcases hmeta : (if dsMem d.file_meta MEDIA_STORAGE_SOP_INSTANCE_UID
            then (attr d.main SOP_INSTANCE_UID).map some
            else .ok none) with e2 | u
        · simp [hmeta] at h
        · simp only [hmeta, Except.ok.injEq, Prod.mk.injEq] at h
          rw [h.2]
    · rcases hg : index_get store (accValue (EValue.str sv)) with _ | serial
      · simp [hg] at h
      · simp only [hg] at h
        refine ⟨accValue (EValue.str sv), ?_⟩
        rw [hg]
        rcases hmeta : (if dsMem d.file_meta MEDIA_STORAGE_SOP_INSTANCE_UID
            then (attr d.main SOP_INSTANCE_UID).map some
            else .ok none) with e2 | u
        · simp [hmeta] at h
        · simp only [hmeta, Except.ok.injEq, Prod.mk.injEq] at h
          rw [h.2]
    · simp at h

/-- C9 (amended): the guard raises whenever the destination has the
input root as a *string* prefix — in particular whenever the destination
lies under or equals the root as a path.  Consequently a quarantine copy
is never created when the configured quarantine directory sits inside
the input tree; and an output file is never written when the configured
output directory sits inside the input tree, *provided* no serial stored
in the accession table is an absolute path — an absolute-path serial
would make `os.path.join(clean_dir, serial_num)` discard the output root
entirely, and with it the claimed fail-closed consequence, which is why
the last conjunct assumes `storeSerialsRelative`.  The claim's other
half fails: a source merely sharing the root as a string prefix is
accepted (see the counterexample). -/
theorem C9_destination_guard :
    (∀ source dest root : Str, strStartsWith dest root = true →
      destination source dest root = .error .exception) ∧
    (∀ source dest root : Str, pathUnderEq root dest = true →
      destination source dest root = .error .exception) ∧
    (∀ st filepath raw qroot ident reason, pathUnderEq ident qroot = true →
      quarantine_file st filepath raw qroot ident reason = .error .exception) ∧
    (∀ (cfg : Config) (st : PState) (d : DFile) (sp raw fp : Str) st2 flag,
      pathUnderEq cfg.identDir cfg.cleanDir = true →
      storeSerialsRelative st.store = true →
      walk_dicom cfg st d sp raw fp = .ok (st2, flag) →
      st2.output = st.output ∧ flag = false) := by
  have hdest : ∀ source dest root : Str, strStartsWith dest root = true →
      destination source dest root = .error .exception := by
    intro source dest root h
    unfold destination
    rw [h]
    rfl
  refine ⟨hdest, ?_, ?_, ?_⟩
  · intro source dest root h
    exact hdest source dest root (pathUnderEq_startsWith root dest h)
  · intro st filepath raw qroot ident reason h
    unfold quarantine_file
    rw [hdest filepath qroot ident (pathUnderEq_startsWith ident qroot h)]
  · intro cfg st d sp raw fp st2 flag hclean hrel hok
    unfold walk_dicom at hok
    rcases hc : check_quarantine cfg.modalities d.main with e | mr
    · simp [hc] at hok
    · simp only [hc] at hok
      rcases mr with ⟨move, reason⟩
      by_cases hmove : move = true
      -- quarantined for content: only the quarantine list changes
      · rw [hmove] at hok
        simp only [if_true] at hok
        rcases hq : quarantine_file st sp raw cfg.quarantineRoot cfg.identDir reason
            with e | st3
        · rw [hq] at hok
          simp [Except.map] at hok
        · rw [hq] at hok
          simp only [Except.map, Except.ok.injEq, Prod.mk.injEq] at hok
          have h3 := quarantine_file_ok _ _ _ _ _ _ _ hq
          obtain ⟨h1, h2⟩ := hok
          refine ⟨?_, h2.symm⟩
          rw [← h1, h3]
      · rw [Bool.not_eq_true] at hmove
        rw [hmove] at hok
        simp only [Bool.false_eq_true, if_false] at hok
        rcases hp : pseudonymize cfg.wl st.store d with e | ds2
        · rcases e with _ | _ | _ | _
          · simp only [hp] at hok
            rcases hq : quarantine_file st sp raw cfg.quarantineRoot cfg.identDir
                NO_SERIAL_REASON with e2 | st3
            · rw [hq] at hok
              simp [Except.map] at hok
            · rw [hq] at hok
              simp only [Except.map, Except.ok.injEq, Prod.mk.injEq] at hok
              have h3 := quarantine_file_ok _ _ _ _ _ _ _ hq
              obtain ⟨h1, h2⟩ := hok
              refine ⟨?_, h2.symm⟩
              rw [← h1, h3]
          · simp [hp] at hok
          · simp [hp] at hok
          · simp [hp] at hok
        · simp only [hp] at hok
          rcases ds2 with ⟨d2, serial_num⟩
          obtain ⟨acc, hacc⟩ := pseudonymize_serial_from_store _ _ _ _ _ hp
          have hser := index_get_relative st.store acc serial_num hacc hrel
          have hjoin := pathJoin_startsWith cfg.cleanDir serial_num hser
          have hpref : strStartsWith (pathJoin cfg.cleanDir serial_num) cfg.identDir = true :=
            strStartsWith_trans _ _ _ (pathUnderEq_startsWith _ _ hclean) hjoin
          rw [hdest sp _ _ hpref] at hok
          simp at hok

/-- C9 witness: a destination under the input root is rejected, and a
quarantine directory equal to the input root yields no copy. -/
theorem C9_destination_guard_witness :
    destination (lit "/in/f.dcm") (lit "/in/q") (lit "/in") = .error .exception ∧
    quarantine_file { store := { accTable := [], fps := [] }, output := [], quarantine := [] }
        (lit "/in/f.dcm") (lit "B") (lit "/in") (lit "/in") (lit "r") = .error .exception :=
  ⟨C9_destination_guard.2.1 (lit "/in/f.dcm") (lit "/in/q") (lit "/in") (by decide),
   C9_destination_guard.2.2.1 _ (lit "/in/f.dcm") (lit "B") (lit "/in") (lit "/in")
     (lit "r") (by decide)⟩

/-- C9 counterexample: source `/datax/f.dcm` does not lie under the
input root `/data` as a path, yet `destination` accepts the call — the
guard is a string-prefix test, so the claim's "raises whenever source
does not lie under the input root" is false. -/
theorem C9_string_prefix_counterexample :
    destination (lit "/datax/f.dcm") (lit "/out") (lit "/data") = .ok (lit "/out") ∧
    pathUnderEq (lit "/data") (lit "/datax/f.dcm") = false := by
  decide

/-! ## Claim C10: fingerprinting presupposes pixel data -/

/-- C10: a successfully parsed, non-hidden dataset lacking the
pixel-data tag makes `get_fingerprint` raise `AttributeError`
(`ds.PixelData` has no value), and since `run_worker` fingerprints every
parsed file before quarantine inspection and does not catch the error,
the file's processing dies with no successor state: nothing is written
to output and nothing is copied to quarantine. -/
theorem C10_missing_pixel_data (cfg : Config) (skip : Bool) (st : PState)
    (f : InputFile) (ds : DFile)
    (hname : strStartsWith f.filename (lit ".") = false)
    (hp : f.parsed = some ds)
    (hpx : dsGet? ds.main PIXEL_DATA = none) :
    get_fingerprint ds = .error .attributeError ∧
    processFile cfg skip st f = none := by
  have hfp : get_fingerprint ds = .error .attributeError := by
    unfold get_fingerprint attr
    rw [hpx]
  refine ⟨hfp, ?_⟩
  unfold processFile
  rw [hname, hp]
  simp [hfp]

/-- C10 witness: a concrete pixel-less dataset is neither written nor
quarantined. -/
theorem C10_missing_pixel_data_witness :
    get_fingerprint { file_meta := [], main := [(MODALITY, { vr := lit "CS", value := EValue.str (lit "mr") })] }
      = .error .attributeError ∧
    processFile { wl := [], modalities := [lit "mr"], identDir := lit "/in",
                  cleanDir := lit "/out", quarantineRoot := lit "/q" } false
        { store := { accTable := [], fps := [] }, output := [], quarantine := [] }
        { root := lit "/in", filename := lit "f.dcm", raw := lit "B",
          parsed := some { file_meta := [],
                           main := [(MODALITY, { vr := lit "CS", value := EValue.str (lit "mr") })] } }
      = none :=
  C10_missing_pixel_data _ _ _ _ _ (by decide) (by decide) (by decide)

/-! ## Claim C3: no serial means quarantine, never output -/

/-- Keyword attribute access can only raise `AttributeError`. -/
theorem attr_error_eq (ds : Dataset) (t : Tag) (e : PyErr)
    (h : attr ds t = .error e) : e = .attributeError := by
  unfold attr at h
  rcases hg : dsGet? ds t with _ | el <;> simp only [hg] at h
  · exact (Except.error.inj h).symm
  · exact absurd h (by simp)

/-- C3: when the accession attribute is present with a scalar value,
`pseudonymize` raises `ValueError` exactly when the store lookup yields
no serial (unregistered accession, NULL serial, or `None` accession
value); and on that path — the dataset having passed quarantine
inspection and the path guard accepting the quarantine root —
`walk_dicom` copies the original bytes to quarantine with the
explanatory no-serial reason and returns `False`, leaving the output
tree untouched. -/
theorem C3_no_serial_never_written (cfg : Config) (st : PState) (d : DFile)
    (sp raw fp : Str) (av : EValue)
    (hacc : attr d.main ACCESSION_NUMBER = .ok av)
    (hnm : ∀ vs, av ≠ EValue.multi vs) :
    (pseudonymize cfg.wl st.store d = .error .valueError ↔
      index_get st.store (accValue av) = none) ∧
    (index_get st.store (accValue av) = none →
      ∀ mr, check_quarantine cfg.modalities d.main = .ok (false, mr) →
      strStartsWith cfg.quarantineRoot cfg.identDir = false →
      strStartsWith sp cfg.identDir = true →
      walk_dicom cfg st d sp raw fp =
        .ok ({ st with quarantine := st.quarantine ++
                 [(pathJoin (normpath cfg.quarantineRoot) (basename sp), raw,
                   NO_SERIAL_REASON)] }, false)) := by
  have hiff : pseudonymize cfg.wl st.store d = .error .valueError ↔
      index_get st.store (accValue av) = none := by
    constructor
    · intro h
      unfold pseudonymize at h
      simp only [hacc] at h
      rcases av with _ | sv | vs
      · rcases hg : index_get st.store (accValue EValue.null) with _ | serial
        · rfl
        · exfalso
          simp only [hg] at h
          rcases hmeta : (if dsMem d.file_meta MEDIA_STORAGE_SOP_INSTANCE_UID
              then (attr d.main SOP_INSTANCE_UID).map some
              else .ok none) with e2 | u
          · simp only [hmeta] at h
            have he2 := Except.error.inj h
            by_cases hmem : dsMem d.file_meta MEDIA_STORAGE_SOP_INSTANCE_UID = true
            · rw [if_pos hmem] at hmeta
              rcases hattr : attr d.main SOP_INSTANCE_UID with e3 | u2
              · rw [hattr] at hmeta
                simp only [Except.map] at hmeta
                have := attr_error_eq _ _ _ hattr
                rw [this] at hmeta
                have := Except.error.inj hmeta
                rw [← this] at he2
                exact PyErr.noConfusion he2
              · rw [hattr] at hmeta
                simp [Except.map] at hmeta
            · rw [if_neg hmem] at hmeta
              exact absurd hmeta (by simp)
          · simp [hmeta] at h
      · rcases hg : index_get st.store (accValue (EValue.str sv)) with _ | serial
        · rfl
        · exfalso
          simp only [hg] at h
          rcases hmeta : (if dsMem d.file_meta MEDIA_STORAGE_SOP_INSTANCE_UID
              then (attr d.main SOP_INSTANCE_UID).map some
              else .ok none) with e2 | u
          · simp only [hmeta] at h
            have he2 := Except.error.inj h
            by_cases hmem : dsMem d.file_meta MEDIA_STORAGE_SOP_INSTANCE_UID = true
            · rw [if_pos hmem] at hmeta
              rcases hattr : attr d.main SOP_INSTANCE_UID with e3 | u2
              · rw [hattr] at hmeta
                simp only [Except.map] at hmeta
                have := attr_error_eq _ _ _ hattr
                rw [this] at hmeta
                have := Except.error.inj hmeta
                rw [← this] at he2
                exact PyErr.noConfusion he2
              · rw [hattr] at hmeta
                simp [Except.map] at hmeta
            · rw [if_neg hmem] at hmeta
              exact absurd hmeta (by simp)
          · simp [hmeta] at h
      · exact absurd rfl (hnm vs)
    · intro h
      unfold pseudonymize
      simp only [hacc]
      rcases av with _ | sv | vs
      · simp only [h]
      · simp only [h]
      · exact absurd rfl (hnm vs)
  refine ⟨hiff, ?_⟩
  intro hnone mr hcheck h1 h2
  have hval := hiff.mpr hnone
  unfold walk_dicom
  simp only [hcheck, Bool.false_eq_true, if_false, hval]
  rw [C4_quarantine_flat_copy st sp raw cfg.quarantineRoot cfg.identDir
    NO_SERIAL_REASON h1 h2]
  rfl

/-- C3 witness: an accession registered with no serial is quarantined
with the no-serial reason and the output tree stays empty. -/
theorem C3_no_serial_never_written_witness :
    walk_dicom
      { wl := [], modalities := [lit "mr"], identDir := lit "/in",
        cleanDir := lit "/out", quarantineRoot := lit "/q" }
      { store := { accTable := [(some (lit "A1"), none)], fps := [] },
        output := [], quarantine := [] }
      { file_meta := [],
        main := [(ACCESSION_NUMBER, { vr := lit "SH", value := EValue.str (lit "A1") }),
                 (MODALITY, { vr := lit "CS", value := EValue.str (lit "mr") })] }
      (lit "/in/f.dcm") (lit "RAW") (lit "FP") =
    .ok ({ store := { accTable := [(some (lit "A1"), none)], fps := [] },
           output := [],
           quarantine := [(pathJoin (normpath (lit "/q")) (basename (lit "/in/f.dcm")),
                           lit "RAW", NO_SERIAL_REASON)] }, false) := by
  have h := C3_no_serial_never_written
    { wl := [], modalities := [lit "mr"], identDir := lit "/in",
      cleanDir := lit "/out", quarantineRoot := lit "/q" }
    { store := { accTable := [(some (lit "A1"), none)], fps := [] },
      output := [], quarantine := [] }
    { file_meta := [],
      main := [(ACCESSION_NUMBER, { vr := lit "SH", value := EValue.str (lit "A1") }),
               (MODALITY, { vr := lit "CS", value := EValue.str (lit "mr") })] }
    (lit "/in/f.dcm") (lit "RAW") (lit "FP")
    (EValue.str (lit "A1")) (by decide) (by intro vs h2; exact EValue.noConfusion h2)
  exact h.2 (by decide) [] (by decide) (by decide) (by decide)

/-! ## Claim C5: fingerprints ignore the pixel payload -/

theorem dsSetValue_dsSetValue (ds : Dataset) (t : Tag) (v w : EValue) :
    dsSetValue (dsSetValue ds t v) t w = dsSetValue ds t w := by
  induction ds with
  | nil => rfl
  | cons p ds ih =>
    by_cases hp : p.1 = t <;> simp [dsSetValue, hp, ih]

/-- C5: two datasets that agree everywhere except in the value of the
pixel-data attribute (both present) get the same fingerprint, because
`get_fingerprint` clears the pixel value before hashing; and with
duplicate-skip enabled, a dataset whose fingerprint is already in the
store is counted as a prior skip — the state, hence the output tree, is
unchanged and nothing is written. -/
theorem C5_fingerprint_ignores_pixels (meta main : Dataset) (v1 v2 : EValue)
    (hpx : dsMem main PIXEL_DATA = true)
    (cfg : Config) (st : PState) (root name raw : Str)
    (hname : strStartsWith name (lit ".") = false) :
    ((get_fingerprint { file_meta := meta, main := dsSetValue main PIXEL_DATA v1 }).map
        (fun r => r.1) =
      (get_fingerprint { file_meta := meta, main := dsSetValue main PIXEL_DATA v2 }).map
        (fun r => r.1)) ∧
    (∀ fp b2 d2,
      get_fingerprint { file_meta := meta, main := dsSetValue main PIXEL_DATA v2 } =
        .ok (fp, b2, d2) →
      fingerprint_exists st.store fp = true →
      processFile cfg true st
        { root := root, filename := name, raw := raw,
          parsed := some { file_meta := meta, main := dsSetValue main PIXEL_DATA v2 } } =
        some (st, .priorSkip)) := by
  constructor
  · rcases hg : dsGet? main PIXEL_DATA with _ | e
    · rw [dsMem, hg] at hpx
      exact absurd hpx (by simp)
    · unfold get_fingerprint attr
      simp [dsGet?_setValue, hg, Except.map, dsSetValue_dsSetValue]
  · intro fp b2 d2 hgf hex
    unfold processFile
    rw [hname]
    simp only [Bool.false_eq_true, if_false, hgf, hex, Bool.and_self, if_true]

/-- C5 witness: concrete datasets differing only in pixel bytes share a
fingerprint, and the second is prior-skipped with the state unchanged. -/
theorem C5_fingerprint_ignores_pixels_witness :
    ((get_fingerprint { file_meta := [],
                        main := dsSetValue [(PIXEL_DATA, { vr := lit "OW", value := EValue.str (lit "AAA") })] PIXEL_DATA (EValue.str (lit "AAA")) }).map (fun r => r.1) =
      (get_fingerprint { file_meta := [],
                         main := dsSetValue [(PIXEL_DATA, { vr := lit "OW", value := EValue.str (lit "AAA") })] PIXEL_DATA (EValue.str (lit "BBB")) }).map (fun r => r.1)) ∧
    processFile
      { wl := [], modalities := [lit "mr"], identDir := lit "/in",
        cleanDir := lit "/out", quarantineRoot := lit "/q" } true
      { store := { accTable := [],
                   fps := [to_json [(PIXEL_DATA, { vr := lit "OW", value := EValue.str [] })]] },
        output := [], quarantine := [] }
      { root := lit "/in", filename := lit "f.dcm", raw := lit "B",
        parsed := some { file_meta := [],
                         main := dsSetValue [(PIXEL_DATA, { vr := lit "OW", value := EValue.str (lit "AAA") })] PIXEL_DATA (EValue.str (lit "BBB")) } } =
      some ({ store := { accTable := [],
                         fps := [to_json [(PIXEL_DATA, { vr := lit "OW", value := EValue.str [] })]] },
              output := [], quarantine := [] }, .priorSkip) := by
  have h := C5_fingerprint_ignores_pixels []
    [(PIXEL_DATA, { vr := lit "OW", value := EValue.str (lit "AAA") })]
    (EValue.str (lit "AAA")) (EValue.str (lit "BBB")) (by decide)
    { wl := [], modalities := [lit "mr"], identDir := lit "/in",
      cleanDir := lit "/out", quarantineRoot := lit "/q" }
    { store := { accTable := [],
                 fps := [to_json [(PIXEL_DATA, { vr := lit "OW", value := EValue.str [] })]] },
      output := [], quarantine := [] }
    (lit "/in") (lit "f.dcm") (lit "B") (by decide)
  exact ⟨h.1, h.2 (to_json [(PIXEL_DATA, { vr := lit "OW", value := EValue.str [] })])
    (EValue.str (lit "BBB"))
    { file_meta := [], main := [(PIXEL_DATA, { vr := lit "OW", value := EValue.str [] })] }
    (by decide) (by decide)⟩

/-! ## Claim C6: idempotence under duplicate-skip -/

theorem fingerprint_exists_iff (st : Store) (x : Str) :
    fingerprint_exists st x = true ↔ x ∈ st.fps := by
  unfold fingerprint_exists get_hash
  rw [List.find?_isSome]
  constructor
  · rintro ⟨y, hy, hyx⟩
    have : y = x := by simpa using hyx
    exact this ▸ hy
  · intro h
    exact ⟨x, h, by simp⟩

theorem insert_hash_accTable (st : Store) (h : Str) :
    (insert_hash st h).accTable = st.accTable := by
  unfold insert_hash
  by_cases hc : h ∈ st.fps <;> simp [hc]

theorem insert_hash_mono (st : Store) (h x : Str)
    (hx : fingerprint_exists st x = true) :
    fingerprint_exists (insert_hash st h) x = true := by
  rw [fingerprint_exists_iff] at hx ⊢
  unfold insert_hash
  by_cases hc : h ∈ st.fps
  · simpa [hc] using hx
  · rw [if_neg (by simpa using hc)]
    exact List.mem_append_left _ hx

theorem insert_hash_mem (st : Store) (h : Str) :
    fingerprint_exists (insert_hash st h) h = true := by
  rw [fingerprint_exists_iff]
  unfold insert_hash
  by_cases hc : h ∈ st.fps
  · rw [if_pos (by simpa using hc)]
    exact hc
  · rw [if_neg (by simpa using hc)]
    simp

/-- The store only ever carries the accession table into the write
decision, so the decision ignores the fingerprint set. -/
theorem pseudonymize_fps_irrelevant (wl : List Tag) (store : Store) (d : DFile) :
    pseudonymize wl store d = pseudonymize wl { accTable := store.accTable, fps := [] } d :=
  rfl

/-- The boolean `walk_dicom` returns is exactly the pure write decision
`walkWrites` of the dataset and the accession table. -/
theorem walk_dicom_flag (cfg : Config) (st : PState) (d : DFile)
    (sp raw fp : Str) (st2 : PState) (flag : Bool)
    (h : walk_dicom cfg st d sp raw fp = .ok (st2, flag)) :
    flag = walkWrites cfg st.store.accTable d sp := by
  unfold walk_dicom at h
  unfold walkWrites
  rw [← pseudonymize_fps_irrelevant cfg.wl st.store d]
  rcases hc : check_quarantine cfg.modalities d.main with e | mr
  · simp [hc] at h
  · simp only [hc] at h ⊢
    rcases mr with ⟨move, reason⟩
    by_cases hmove : move = true
    · rw [hmove] at h ⊢
      simp only [if_true] at h ⊢
      rcases hq : quarantine_file st sp raw cfg.quarantineRoot cfg.identDir reason
          with e | st3
      · rw [hq] at h
        simp [Except.map] at h
      · rw [hq] at h
        simp only [Except.map, Except.ok.injEq, Prod.mk.injEq] at h
        exact h.2.symm
    · rw [Bool.not_eq_true] at hmove
      rw [hmove] at h ⊢
      simp only [Bool.false_eq_true, if_false] at h ⊢
      rcases hp : pseudonymize cfg.wl st.store d with e | ds2
      · rcases e with _ | _ | _ | _
        · simp only [hp] at h ⊢
          rcases hq : quarantine_file st sp raw cfg.quarantineRoot cfg.identDir
              NO_SERIAL_REASON with e2 | st3
          · rw [hq] at h
            simp [Except.map] at h
          · rw [hq] at h
            simp only [Except.map, Except.ok.injEq, Prod.mk.injEq] at h
            exact h.2.symm
        · simp [hp] at h
        · simp [hp] at h
        · simp [hp] at h
      · simp only [hp] at h ⊢
        rcases ds2 with ⟨d2, serial_num⟩
        rcases hd : destination sp (pathJoin cfg.cleanDir serial_num) cfg.identDir
            with e2 | dir
        · simp [hd] at h
        · simp only [hd] at h ⊢
          simp only [Except.ok.injEq, Prod.mk.injEq] at h
          exact h.2.symm

/-- State effects of `walk_dicom`: the accession table is untouched,
registered fingerprints persist, a write registers its fingerprint, and
a non-write leaves output and store unchanged. -/
theorem walk_dicom_effects (cfg : Config) (st : PState) (d : DFile)
    (sp raw fp : Str) (st2 : PState) (flag : Bool)
    (h : walk_dicom cfg st d sp raw fp = .ok (st2, flag)) :
    st2.store.accTable = st.store.accTable ∧
    (∀ x, fingerprint_exists st.store x = true →
      fingerprint_exists st2.store x = true) ∧
    (flag = true → fingerprint_exists st2.store fp = true) ∧
    (flag = false → st2.output = st.output ∧ st2.store = st.store) := by
  unfold walk_dicom at h
  rcases hc : check_quarantine cfg.modalities d.main with e | mr
  · simp [hc] at h
  · simp only [hc] at h
    rcases mr with ⟨move, reason⟩
    by_cases hmove : move = true
    · rw [hmove] at h
      simp only [if_true] at h
      rcases hq : quarantine_file st sp raw cfg.quarantineRoot cfg.identDir reason
          with e | st3
      · rw [hq] at h
        simp [Except.map] at h
      · rw [hq] at h
        simp only [Except.map, Except.ok.injEq, Prod.mk.injEq] at h
        have h3 := quarantine_file_ok _ _ _ _ _ _ _ hq
        rw [← h.1, h3]
        refine ⟨rfl, fun x hx => hx, ?_, fun _ => ⟨rfl, rfl⟩⟩
        intro hflag
        rw [← h.2] at hflag
        exact absurd hflag (by simp)
    · rw [Bool.not_eq_true] at hmove
      rw [hmove] at h
      simp only [Bool.false_eq_true, if_false] at h
      rcases hp : pseudonymize cfg.wl st.store d with e | ds2
      · rcases e with _ | _ | _ | _
        · simp only [hp] at h
          rcases hq : quarantine_file st sp raw cfg.quarantineRoot cfg.identDir
              NO_SERIAL_REASON with e2 | st3
          · rw [hq] at h
            simp [Except.map] at h
          · rw [hq] at h
            simp only [Except.map, Except.ok.injEq, Prod.mk.injEq] at h
            have h3 := quarantine_file_ok _ _ _ _ _ _ _ hq
            rw [← h.1, h3]
            refine ⟨rfl, fun x hx => hx, ?_, fun _ => ⟨rfl, rfl⟩⟩
            intro hflag
            rw [← h.2] at hflag
            exact absurd hflag (by simp)
        · simp [hp] at h
        · simp [hp] at h
        · simp [hp] at h
      · simp only [hp] at h
        rcases ds2 with ⟨d2, serial_num⟩
        rcases hd : destination sp (pathJoin cfg.cleanDir serial_num) cfg.identDir
            with e2 | dir
        · simp [hd] at h
        · simp only [hd, Except.ok.injEq, Prod.mk.injEq] at h
          rw [← h.1]
          refine ⟨insert_hash_accTable _ _, ?_, ?_, ?_⟩
          · intro x hx
            exact insert_hash_mono _ _ _ hx
          · intro _
            exact insert_hash_mem _ _
          · intro hflag
            rw [← h.2] at hflag
            exact absurd hflag (by simp)

/-- State effects of one `run_worker` task: the accession table is
untouched, registered fingerprints persist, and any outcome other than
a write leaves the output tree unchanged. -/
theorem processFile_effects (cfg : Config) (b : Bool) (st : PState) (f : InputFile)
    (st2 : PState) (o : Outcome) (h : processFile cfg b st f = some (st2, o)) :
    st2.store.accTable = st.store.accTable ∧
    (∀ x, fingerprint_exists st.store x = true →
      fingerprint_exists st2.store x = true) ∧
    (o ≠ .written → st2.output = st.output) := by
  unfold processFile at h
  by_cases hh : strStartsWith f.filename (lit ".") = true
  · rw [if_pos hh] at h
    simp only [Option.some.injEq, Prod.mk.injEq] at h
    rw [← h.1]
    exact ⟨rfl, fun x hx => hx, fun _ => rfl⟩
  · rw [if_neg hh] at h
    rcases hp : f.parsed with _ | ds
    · simp only [hp] at h
      rcases hq : quarantine_file st (pathJoin f.root f.filename) f.raw
          cfg.quarantineRoot cfg.identDir (lit "Could not read DICOM file.")
          with e | st3
      · simp [hq] at h
      · simp only [hq, Option.some.injEq, Prod.mk.injEq] at h
        have h3 := quarantine_file_ok _ _ _ _ _ _ _ hq
        rw [← h.1, h3]
        exact ⟨rfl, fun x hx => hx, fun _ => rfl⟩
    · simp only [hp] at h
      rcases hg : get_fingerprint ds with e | r
      · simp [hg] at h
      · simp only [hg] at h
        rcases r with ⟨fp0, bytes, dsC⟩
        by_cases hsk : (b && fingerprint_exists st.store fp0) = true
        · rw [if_pos hsk] at h
          simp only [Option.some.injEq, Prod.mk.injEq] at h
          rw [← h.1]
          exact ⟨rfl, fun x hx => hx, fun _ => rfl⟩
        · rw [if_neg hsk] at h
          rcases hw : walk_dicom cfg st
              { dsC with main := dsSetValue dsC.main PIXEL_DATA bytes }
              (pathJoin f.root f.filename) f.raw fp0 with e | pr
          · simp [hw] at h
          · rcases pr with ⟨st3, flag⟩
            obtain ⟨hacc, hmono, hreg, hnw⟩ := walk_dicom_effects _ _ _ _ _ _ _ _ hw
            rcases flag with _ | _
            · simp only [hw, Option.some.injEq, Prod.mk.injEq] at h
              rw [← h.1]
              exact ⟨hacc, hmono, fun _ => (hnw rfl).1⟩
            · simp only [hw, Option.some.injEq, Prod.mk.injEq] at h
              rw [← h.1]
              refine ⟨hacc, hmono, ?_⟩
              intro ho
              exact absurd h.2.symm ho

/-- Having visited a non-hidden file whose decision is "write", the
worker leaves the file's fingerprint registered — either it wrote and
registered it now, or the duplicate-skip found it already present. -/
theorem processFile_head_registers (cfg : Config) (b : Bool) (st : PState)
    (f : InputFile) (st2 : PState) (o : Outcome) (fp : Str)
    (hpf : processFile cfg b st f = some (st2, o))
    (hh : strStartsWith f.filename (lit ".") = false)
    (hw : fileWrites cfg st.store.accTable f = true)
    (hfp : fpOf f = some fp) :
    fingerprint_exists st2.store fp = true := by
  unfold processFile at hpf
  rw [hh] at hpf
  simp only [Bool.false_eq_true, if_false] at hpf
  rcases hp : f.parsed with _ | ds
  · unfold fileWrites at hw
    simp [hp] at hw
  · simp only [hp] at hpf
    rcases hg : get_fingerprint ds with e | r
    · unfold fileWrites at hw
      simp [hp, hg] at hw
    · rcases r with ⟨fp0, bytes, dsC⟩
      have hfp0 : fp0 = fp := by
        unfold fpOf at hfp
        rw [hp] at hfp
        simp [hg] at hfp
        exact hfp
      simp only [hg] at hpf
      by_cases hsk : (b && fingerprint_exists st.store fp0) = true
      · rw [if_pos hsk] at hpf
        simp only [Option.some.injEq, Prod.mk.injEq] at hpf
        rw [← hpf.1, ← hfp0]
        have hsk2 : b = true ∧ fingerprint_exists st.store fp0 = true := by
          simpa using hsk
        exact hsk2.2
      · rw [if_neg hsk] at hpf
        rcases hwk : walk_dicom cfg st
            { dsC with main := dsSetValue dsC.main PIXEL_DATA bytes }
            (pathJoin f.root f.filename) f.raw fp0 with e | pr
        · simp [hwk] at hpf
        · rcases pr with ⟨st3, flag⟩
          obtain ⟨hacc, hmono, hreg, hnw⟩ := walk_dicom_effects _ _ _ _ _ _ _ _ hwk
          have hflag : flag = true := by
            have := walk_dicom_flag _ _ _ _ _ _ _ _ hwk
            unfold fileWrites at hw
            simp only [hp, hg] at hw
            rw [this, hw]
          rw [hflag] at hwk
          rcases flag with _ | _
          · exact absurd hflag (by simp)
          · simp only [hwk, Option.some.injEq, Prod.mk.injEq] at hpf
            rw [← hpf.1, ← hfp0]
            exact hreg rfl

/-- A written outcome implies: the file was not hidden, its decision was
"write", its fingerprint was not yet registered when duplicate-skip was
on, and it is registered afterwards. -/
theorem processFile_written (cfg : Config) (b : Bool) (st : PState) (f : InputFile)
    (st2 : PState) (h : processFile cfg b st f = some (st2, .written)) :
    strStartsWith f.filename (lit ".") = false ∧
    ∃ fp, fpOf f = some fp ∧
      fileWrites cfg st.store.accTable f = true ∧
      (b = true → fingerprint_exists st.store fp = false) := by
  unfold processFile at h
  by_cases hh : strStartsWith f.filename (lit ".") = true
  · rw [if_pos hh] at h
    simp at h
  · rw [if_neg hh] at h
    rw [Bool.not_eq_true] at hh
    refine ⟨hh, ?_⟩
    rcases hp : f.parsed with _ | ds
    · simp only [hp] at h
      rcases hq : quarantine_file st (pathJoin f.root f.filename) f.raw
          cfg.quarantineRoot cfg.identDir (lit "Could not read DICOM file.")
          with e | st3
      · simp [hq] at h
      · simp [hq] at h
    · simp only [hp] at h
      rcases hg : get_fingerprint ds with e | r
      · simp [hg] at h
      · simp only [hg] at h
        rcases r with ⟨fp0, bytes, dsC⟩
        by_cases hsk : (b && fingerprint_exists st.store fp0) = true
        · rw [if_pos hsk] at h
          simp at h
        · rw [if_neg hsk] at h
          rcases hwk : walk_dicom cfg st
              { dsC with main := dsSetValue dsC.main PIXEL_DATA bytes }
              (pathJoin f.root f.filename) f.raw fp0 with e | pr
          · simp [hwk] at h
          · rcases pr with ⟨st3, flag⟩
            rcases flag with _ | _
            · simp [hwk] at h
            · refine ⟨fp0, ?_, ?_, ?_⟩
              · unfold fpOf
                simp [hp, hg]
              · unfold fileWrites
                simp only [hp, hg]
                exact (walk_dicom_flag _ _ _ _ _ _ _ _ hwk).symm
              · intro hb
                rw [hb] at hsk
                simp only [Bool.true_and] at hsk
                exact Bool.not_eq_true _ ▸ (Bool.eq_false_iff.mpr hsk)

/-- After a completed run, every non-hidden file of the list whose
decision is "write" has its fingerprint registered; the accession table
is unchanged and registered fingerprints persist. -/
theorem runPipeline_registers (cfg : Config) (b : Bool) :
    ∀ (files : List InputFile) (st st1 : PState),
      runPipeline cfg b st files = some st1 →
      st1.store.accTable = st.store.accTable ∧
      (∀ x, fingerprint_exists st.store x = true →
        fingerprint_exists st1.store x = true) ∧
      (∀ f ∈ files, ∀ fp, strStartsWith f.filename (lit ".") = false →
        fileWrites cfg st.store.accTable f = true → fpOf f = some fp →
        fingerprint_exists st1.store fp = true) := by
  intro files
  induction files with
  | nil =>
    intro st st1 h
    simp only [runPipeline, Option.some.injEq] at h
    rw [← h]
    exact ⟨rfl, fun x hx => hx, fun f hf => absurd hf (by simp)⟩
  | cons f fs ih =>
    intro st st1 h
    unfold runPipeline at h
    rcases hpf : processFile cfg b st f with _ | pr
    · simp [hpf] at h
    · rcases pr with ⟨st', o⟩
      simp only [hpf] at h
      obtain ⟨ih1, ih2, ih3⟩ := ih st' st1 h
      obtain ⟨e1, e2, e3⟩ := processFile_effects _ _ _ _ _ _ hpf
      refine ⟨ih1.trans e1, fun x hx => ih2 x (e2 x hx), ?_⟩
      intro g hg fpg hgh hgw hgfp
      rcases List.mem_cons.mp hg with rfl | hg
      · exact ih2 fpg (processFile_head_registers _ _ _ _ _ _ _ hpf hgh hgw hgfp)
      · exact ih3 g hg fpg hgh (by rw [e1]; exact hgw) hgfp

/-- With duplicate-skip on and every would-write file's fingerprint
already registered, a run changes no output file. -/
theorem runPipeline_skip_preserves_output (cfg : Config) :
    ∀ (files : List InputFile) (st st2 : PState),
      runPipeline cfg true st files = some st2 →
      (∀ f ∈ files, ∀ fp, strStartsWith f.filename (lit ".") = false →
        fileWrites cfg st.store.accTable f = true → fpOf f = some fp →
        fingerprint_exists st.store fp = true) →
      st2.output = st.output := by
  intro files
  induction files with
  | nil =>
    intro st st2 h _
    simp only [runPipeline, Option.some.injEq] at h
    rw [← h]
  | cons f fs ih =>
    intro st st2 h hinv
    unfold runPipeline at h
    rcases hpf : processFile cfg true st f with _ | pr
    · simp [hpf] at h
    · rcases pr with ⟨st', o⟩
      simp only [hpf] at h
      obtain ⟨e1, e2, e3⟩ := processFile_effects _ _ _ _ _ _ hpf
      have hnw : o ≠ .written := by
        intro ho
        rw [ho] at hpf
        obtain ⟨hh, fp, hfp, hw, hnotin⟩ := processFile_written _ _ _ _ _ hpf
        have := hinv f (List.mem_cons_self f fs) fp hh hw hfp
        rw [hnotin rfl] at this
        exact Bool.noConfusion this
      have hout := e3 hnw
      have := ih st' st2 h ?_
      · rw [this, hout]
      · intro g hg fpg hgh hgw hgfp
        refine e2 fpg (hinv g (List.mem_cons_of_mem f hg) fpg hgh ?_ hgfp)
        rw [← e1]
        exact hgw

/-- C6: rerunning a completed pipeline run over the same file list with
duplicate-skip enabled adds no file to the output tree: every file
written by the first run registered its fingerprint, the accession table
does not change during a run, and a registered fingerprint makes the
rerun count a prior skip before any write. -/
theorem C6_rerun_adds_no_output (cfg : Config) (b : Bool) (files : List InputFile)
    (st0 st1 st2 : PState)
    (h1 : runPipeline cfg b st0 files = some st1)
    (h2 : runPipeline cfg true st1 files = some st2) :
    st2.output = st1.output := by
  obtain ⟨hacc, hmono, hreg⟩ := runPipeline_registers cfg b files st0 st1 h1
  apply runPipeline_skip_preserves_output cfg files st1 st2 h2
  intro f hf fp hh hw hfp
  apply hreg f hf fp hh ?_ hfp
  rw [← hacc]
  exact hw

/-- C6 witness: a one-file run writes the file; rerunning over the same
file with duplicate-skip enabled prior-skips it, and the output after
the rerun equals the output after the first run. -/
theorem C6_rerun_adds_no_output_witness :
    runPipeline scnCfg false { store := scnStore, output := [], quarantine := [] }
        [scnFile] = some scnSt1 ∧
    runPipeline scnCfg true scnSt1 [scnFile] = some scnSt1 ∧
    scnSt1.output = scnSt1.output :=
  ⟨by decide, by decide,
   C6_rerun_adds_no_output scnCfg false [scnFile]
     { store := scnStore, output := [], quarantine := [] } scnSt1 scnSt1
     (by decide) (by decide)⟩

/-! ## Claim C8: end-to-end resolution and naming -/

/-- C8: with accession `"R9BF8PC1GE"` and links row
`("BF8PC1G", "abc123")`, the resolver matches the accession by substring
containment and assigns serial `"abc123"`; the pipeline writes the
pseudonymized dataset to `output_root/abc123/1.dcm` — the name being
(files already in that serial's directory) + 1, here 1 — with the
accession attribute rewritten to `"abc123"`. -/
theorem C8_end_to_end_scenario :
    scnStore.accTable = [(some (lit "R9BF8PC1GE"), some (lit "abc123"))] ∧
    index_get scnStore (some (lit "R9BF8PC1GE")) = some (lit "abc123") ∧
    processFile scnCfg false { store := scnStore, output := [], quarantine := [] }
        scnFile = some (scnSt1, .written) ∧
    scnSt1.output = [(lit "/out/abc123/1.dcm", scnWritten)] ∧
    dsGet? scnWritten.main ACCESSION_NUMBER =
      some { vr := lit "SH", value := EValue.str (lit "abc123") } := by
  refine ⟨by decide, by decide, by decide, rfl, by decide⟩

end DicomPseudon
